import Mathlib

/-!
A shallow embedding of the cloneAllGitea utility (main.go) and proofs about it.

The program has two phases: `fetchRepositories` pages through a Gitea
listing endpoint accumulating repository descriptors (optionally filtered
by owner), and a dispatcher that, per descriptor, skips the clone when a
filesystem entry named by the full name is already present, otherwise
invokes an external clone operation, collecting one outcome per descriptor.

The HTTP boundary is modelled by a server function from page numbers to
page responses; the body of a 200 response is represented by the outcome
of decoding it as a JSON array of repositories (some entries when the body
is a well-formed array, none when it is malformed), which is the only way
the program observes the body.  The unbounded page loop is modelled with
a fuel parameter; running out of fuel is a distinguished error that stands
for nontermination and never occurs in the theorems, whose hypotheses
provide enough fuel.  The filesystem stat call is modelled by an oracle
returning the three outcomes the code distinguishes, and the external
clone by an oracle giving each invocation's optional failure.
-/

/-- A repository descriptor as decoded from the listing endpoint
(struct `Repository` in main.go: fields name, clone_url, full_name). -/
structure Repository where
  name : String
  cloneURL : String
  fullName : String
deriving DecidableEq

/-- Per-repository outcome sent on the results channel (struct `Result`
in main.go).  The Go error value is modelled as an optional message,
`none` standing for nil. -/
structure Result where
  repoName : String
  err : Option String
deriving DecidableEq

/-- Go's strings.Split with a one-character separator, working on the
character list of a string; `acc` holds the current field reversed. -/
def splitOnCharAux (c : Char) : List Char → List Char → List (List Char)
  | [], acc => [acc.reverse]
  | x :: xs, acc =>
    if x = c then acc.reverse :: splitOnCharAux c xs []
    else splitOnCharAux c xs (x :: acc)

/-- Go's strings.Split(s, sep) for a one-character separator. -/
def splitOnChar (s : String) (c : Char) : List String :=
  (splitOnCharAux c s.data []).map (fun cs => ⟨cs⟩)

/-- The owner segment of a full name: strings.Split(fullName, "/")[0]
(main.go line 148).  The split of any string is nonempty, so the Go
index 0 is total; `headI` returns "" only in the unreachable empty case. -/
def ownerSegment (fullName : String) : String :=
  (splitOnChar fullName '/').headI

/-- Outcome of reading the response body of a 200 listing response:
either io.ReadAll fails, or it yields a body whose decoding as a JSON
array of repositories either succeeds with a list (`some`) or fails
(`none`).  json.Unmarshal's error is ignored by the code, which then
sees a nil slice (main.go lines 139-140). -/
inductive BodyRead where
  | readErr : BodyRead
  | body : Option (List Repository) → BodyRead
deriving DecidableEq

/-- One page request's observable outcome at the HTTP client:
a transport failure from client.Do, or a response with a status code
and a body read outcome. -/
inductive PageResponse where
  | netErr : PageResponse
  | resp : Nat → BodyRead → PageResponse
deriving DecidableEq

/-- The error cases of `fetchRepositories` (main.go lines 118-137), plus
a fuel-exhaustion marker standing for nontermination of the page loop. -/
inductive FetchError where
  | network : FetchError
  | readFail : FetchError
  | httpStatus : Nat → FetchError
  | outOfFuel : FetchError
deriving DecidableEq

/-- The per-page accumulation step of main.go lines 146-154: when the
owner filter is active (filterByUsername and a nonempty username), keep
only the entries whose owner segment equals the username, else keep all. -/
def pageFilter (username : String) (filterByUsername : Bool) (repos : List Repository) : List Repository :=
  if filterByUsername = true ∧ username ≠ "" then
    repos.filter (fun r => ownerSegment r.fullName == username)
  else repos

/-- The page loop of `fetchRepositories` (main.go lines 117-157),
parameterised by the server oracle and by fuel bounding the number of
iterations.  Each iteration requests page `page`; a transport failure,
a read failure or a non-200 status aborts with an error; a page decoding
to an empty (or, the decode error being ignored, undecodable) list ends
the loop returning the accumulator; otherwise the page's entries are
appended, filtered when the owner filter is active, and the next page is
requested. -/
def fetchRepositoriesAux (server : Nat → PageResponse) (username : String)
    (filterByUsername : Bool) : Nat → Nat → List Repository → Except FetchError (List Repository)
  | 0, _, _ => Except.error FetchError.outOfFuel
  | fuel + 1, page, allRepos =>
    match server page with
    | PageResponse.netErr => Except.error FetchError.network
    | PageResponse.resp code b =>
      if code ≠ 200 then Except.error (FetchError.httpStatus code)
      else
        match b with
        | BodyRead.readErr => Except.error FetchError.readFail
        | BodyRead.body decoded =>
          let repos := decoded.getD []
          if repos = [] then Except.ok allRepos
          else
            fetchRepositoriesAux server username filterByUsername fuel (page + 1)
              (allRepos ++ pageFilter username filterByUsername repos)

/-- `fetchRepositories` (main.go line 113): start at page 1 with an empty
accumulator. -/
def fetchRepositories (server : Nat → PageResponse) (username : String)
    (filterByUsername : Bool) (fuel : Nat) : Except FetchError (List Repository) :=
  fetchRepositoriesAux server username filterByUsername fuel 1 []

/-- The username main.go passes to `fetchRepositories` (lines 60-69):
the token's resolved identity when -onlyme is set, else the -user value
when nonempty, else empty. -/
def mainUsername (onlyMe : Bool) (user resolved : String) : String :=
  if onlyMe then resolved
  else if user = "" then ""
  else user

/-- The filter flag main.go passes to `fetchRepositories` (line 71):
onlyMe || user != "". -/
def mainFilterFlag (onlyMe : Bool) (user : String) : Bool :=
  onlyMe || !(user == "")

deriving instance DecidableEq for Except

/-- The three outcomes of os.Stat that the dispatcher distinguishes via
os.IsNotExist (main.go line 89): the stat succeeded (the entry exists),
it failed with a not-exist error, or it failed with any other error. -/
inductive StatResult where
  | ok : StatResult
  | notExist : StatResult
  | otherErr : StatResult
deriving DecidableEq

/-- The per-repository goroutine body (main.go lines 84-98), with os.Stat
modelled by the `stat` oracle and gitClone's outcome by the `cloneErr`
oracle (`none` = exit status zero).  The skip branch runs exactly when
os.IsNotExist(err) is false, i.e. when the stat outcome is anything other
than a not-exist error.  The second component records whether gitClone
was invoked. -/
def dispatchOne (stat : String → StatResult) (cloneErr : Repository → Option String)
    (repo : Repository) : Result × Bool :=
  if stat repo.fullName ≠ StatResult.notExist then
    ({ repoName := repo.fullName, err := none }, false)
  else
    ({ repoName := repo.fullName, err := cloneErr repo }, true)

/-- The fan-out over the fetched list (main.go lines 82-99).  The results
channel is buffered to len(repos) and drained after all goroutines
finish, so every descriptor contributes exactly one outcome; outcomes
are modelled in list order, which is adequate for the order-insensitive
counting and membership properties proved below. -/
def dispatchAll (stat : String → StatResult) (cloneErr : Repository → Option String)
    (repos : List Repository) : List (Result × Bool) :=
  repos.map (dispatchOne stat cloneErr)

/-- The number of gitClone invocations in a dispatch run. -/
def cloneInvocations (out : List (Result × Bool)) : Nat :=
  (out.filter (fun p => p.2)).length

/-- main.go lines 71-110: when fetching fails the run prints the error
and returns before any dispatch, so no clone happens; otherwise the
fetched list is dispatched. -/
def runClones (fetched : Except FetchError (List Repository))
    (stat : String → StatResult) (cloneErr : Repository → Option String) :
    List (Result × Bool) :=
  match fetched with
  | Except.error _ => []
  | Except.ok repos => dispatchAll stat cloneErr repos

/-- Trailing whitespace characters removed from both ends of a character
list, modelling strings.TrimSpace (the model trims the four common ASCII
whitespace characters; the claims exercise no exotic whitespace). -/
def trimChars (cs : List Char) : List Char :=
  ((cs.dropWhile Char.isWhitespace).reverse.dropWhile Char.isWhitespace).reverse

/-- strings.TrimSpace on a string. -/
def trimString (s : String) : String :=
  ⟨trimChars s.data⟩

/-- strings.HasPrefix(line, "#") for the one-character pattern used by
loadConfig (main.go line 175). -/
def startsWithHash (s : String) : Bool :=
  match s.data with
  | [] => false
  | c :: _ => c == '#'

/-- A line loadConfig skips (main.go line 175): blank after trimming, or
starting with '#'. -/
def isSkippable (line : String) : Bool :=
  trimString line == "" || startsWithHash line

/-- Go's strings.SplitN(s, sep, 2) for a one-character separator: split
at the first occurrence only; a string without the separator yields a
single field.  `acc` holds the first field read so far, reversed. -/
def splitFirst (c : Char) : List Char → List Char → List (List Char)
  | [], acc => [acc.reverse]
  | x :: xs, acc =>
    if x = c then [acc.reverse, xs]
    else splitFirst c xs (x :: acc)

/-- One iteration of loadConfig's line loop (main.go lines 174-184):
skippable lines leave the accumulated configuration unchanged; otherwise
the line is split at its first '='; if there is none the load fails,
else the trimmed key and value are recorded.  The configuration is an
association list in insertion order; `getValue` below reads it with the
last-write-wins semantics of the Go map. -/
def loadConfigLine (cfg : List (String × String)) (line : String) :
    Except String (List (String × String)) :=
  if isSkippable line then Except.ok cfg
  else
    match splitFirst '=' line.data [] with
    | [k, v] => Except.ok (cfg ++ [(⟨trimChars k⟩, ⟨trimChars v⟩)])
    | _ => Except.error ("bad line in config file: " ++ line)

/-- loadConfig's loop over all lines (main.go lines 173-184). -/
def loadConfigLines (cfg : List (String × String)) :
    List String → Except String (List (String × String))
  | [] => Except.ok cfg
  | line :: rest =>
    match loadConfigLine cfg line with
    | Except.ok cfg' => loadConfigLines cfg' rest
    | Except.error e => Except.error e

/-- loadConfig (main.go lines 166-187) applied to the file's contents:
split on newlines, then process each line.  Reading the file itself is
outside the model. -/
def loadConfig (content : String) : Except String (List (String × String)) :=
  loadConfigLines [] (splitOnChar content '\n')

/-- Reading the configuration map as main.go lines 49-51 do: a Go map
lookup yields the zero value "" for an absent key, and the last write to
a key wins. -/
def getValue (cfg : List (String × String)) (key : String) : String :=
  match cfg.reverse.find? (fun e => e.1 == key) with
  | some e => e.2
  | none => ""

/-- A concrete repository under owner org, used to instantiate theorems. -/
def repoOrgA : Repository :=
  { name := "a", cloneURL := "http://h/org/a.git", fullName := "org/a" }

/-- A second concrete repository under owner org. -/
def repoOrgB : Repository :=
  { name := "b", cloneURL := "http://h/org/b.git", fullName := "org/b" }

/-- A concrete repository under owner alice. -/
def repoAliceC : Repository :=
  { name := "c", cloneURL := "http://h/alice/c.git", fullName := "alice/c" }

/-- A server with one repository on each of pages 1 and 2, an empty page 3,
and a transport failure on every later page: the later pages can never be
requested in a correct run. -/
def twoPageServer : Nat → PageResponse := fun n =>
  if n = 1 then PageResponse.resp 200 (BodyRead.body (some [repoOrgA]))
  else if n = 2 then PageResponse.resp 200 (BodyRead.body (some [repoOrgB]))
  else if n = 3 then PageResponse.resp 200 (BodyRead.body (some []))
  else PageResponse.netErr

/-- A server whose page 1 lists one repository and whose page 2 returns a
200 response with a body that does not decode as a JSON array. -/
def malformedPageServer : Nat → PageResponse := fun n =>
  if n = 1 then PageResponse.resp 200 (BodyRead.body (some [repoOrgA]))
  else PageResponse.resp 200 (BodyRead.body none)

/-- A server whose page 1 lists one repository and whose page 2 answers
with HTTP status 404. -/
def badStatusServer : Nat → PageResponse := fun n =>
  if n = 1 then PageResponse.resp 200 (BodyRead.body (some [repoOrgA]))
  else PageResponse.resp 404 (BodyRead.body (some []))

/-- A server with one mixed-owner page followed by an empty page. -/
def mixedOwnerServer : Nat → PageResponse := fun n =>
  if n = 1 then PageResponse.resp 200 (BodyRead.body (some [repoOrgA, repoAliceC]))
  else PageResponse.resp 200 (BodyRead.body (some []))

/-- A stat oracle under which every queried entry exists. -/
def statAlwaysOk : String → StatResult := fun _ => StatResult.ok

/-- A stat oracle under which no queried entry exists. -/
def statAlwaysNotExist : String → StatResult := fun _ => StatResult.notExist

/-- A stat oracle that always fails with an error that is not a
not-exist error (for example a permission error). -/
def statAlwaysOtherErr : String → StatResult := fun _ => StatResult.otherErr

/-- A stat oracle under which exactly the entry org/a exists. -/
def statOnlyOrgA : String → StatResult := fun s =>
  if s == "org/a" then StatResult.ok else StatResult.notExist

/-- A clone oracle under which every clone succeeds. -/
def cloneAlwaysOk : Repository → Option String := fun _ => none

/-- A clone oracle under which every clone fails. -/
def cloneAlwaysFails : Repository → Option String := fun _ => some "exit status 128"

/-- A clone oracle under which exactly org/b's clone fails. -/
def cloneFailOrgB : Repository → Option String := fun r =>
  if r.fullName == "org/b" then some "exit status 128" else none

/-- Three descriptors, of which exactly one (org/a) exists under
statOnlyOrgA. -/
def threeRepos : List Repository := [repoOrgA, repoOrgB, repoAliceC]

/-- The existence predicate matching statOnlyOrgA on threeRepos. -/
def existsOnlyOrgA : Repository → Bool := fun r => r.fullName == "org/a"

/-- Processing a run of nonempty, well-decoded 200 pages advances the page
loop past them, consuming that much fuel and appending their (filtered)
entries to the accumulator. -/
lemma fetchAux_advance (pages : List (List Repository)) :
    ∀ (server : Nat → PageResponse) (u : String) (fb : Bool) (start fuel : Nat)
      (acc : List Repository),
      pages.length < fuel →
      (∀ p ∈ pages, p ≠ []) →
      (∀ i, i < pages.length →
        server (start + i) = PageResponse.resp 200 (BodyRead.body (some (pages.getD i [])))) →
      fetchRepositoriesAux server u fb fuel start acc =
        fetchRepositoriesAux server u fb (fuel - pages.length) (start + pages.length)
          (acc ++ (pages.map (pageFilter u fb)).flatten) := by
  induction pages with
  | nil =>
    intro server u fb start fuel acc hfuel hne hpages
    simp
  | cons p ps ih =>
    intro server u fb start fuel acc hfuel hne hpages
    obtain ⟨f, rfl⟩ : ∃ f, fuel = f + 1 := ⟨fuel - 1, by omega⟩
    have h0 := hpages 0 (by simp)
    simp only [Nat.add_zero, List.getD_cons_zero] at h0
    have hp : p ≠ [] := hne p (by simp)
    rw [fetchRepositoriesAux, h0]
    simp only [ne_eq, reduceIte, Option.getD_some, hp, ite_false, if_neg hp]
    rw [ih server u fb (start + 1) f (acc ++ pageFilter u fb p)
      (by simpa using Nat.lt_of_succ_lt_succ hfuel)
      (fun q hq => hne q (List.mem_cons_of_mem p hq))
      (fun i hi => by
        have h := hpages (i + 1) (by simpa using Nat.succ_lt_succ hi)
        simpa [Nat.add_assoc, Nat.add_comm 1 i] using h)]
    simp [Nat.succ_sub_succ, List.append_assoc, Nat.add_assoc, Nat.add_comm 1 ps.length]

/-- With the filter flag off, the per-page accumulation keeps every entry. -/
lemma pageFilter_false (u : String) : pageFilter u false = fun repos => repos := by
  funext repos
  simp [pageFilter]

/-- When, after a run of nonempty well-decoded 200 pages, the next page is
a 200 whose body decodes (up to the ignored decode error) to the empty
list, the loop returns the accumulated entries. -/
lemma fetch_pages_ok (server : Nat → PageResponse) (u : String) (fb : Bool)
    (pages : List (List Repository)) (fuel : Nat) (d : Option (List Repository))
    (hfuel : pages.length < fuel)
    (hne : ∀ p ∈ pages, p ≠ [])
    (hpages : ∀ i, i < pages.length →
      server (1 + i) = PageResponse.resp 200 (BodyRead.body (some (pages.getD i []))))
    (hterm : server (1 + pages.length) = PageResponse.resp 200 (BodyRead.body d))
    (hd : d.getD [] = []) :
    fetchRepositories server u fb fuel =
      Except.ok ((pages.map (pageFilter u fb)).flatten) := by
  rw [fetchRepositories, fetchAux_advance pages server u fb 1 fuel [] hfuel hne hpages]
  obtain ⟨m, hm⟩ : ∃ m, fuel - pages.length = m + 1 := ⟨fuel - pages.length - 1, by omega⟩
  rw [hm, fetchRepositoriesAux, hterm]
  simp [hd]

/-- C2: with no owner filter active, the list returned by
fetchRepositories is the concatenation of the pages' entries in page and
entry order, and pagination stops exactly at the first empty page: the
hypotheses constrain the server only on pages 1 through N+1 (the N
nonempty pages and the first empty page), and the conclusion holds for
every behaviour of the server beyond them, so no later page is ever
requested. -/
theorem c2_pagination_concatenation (server : Nat → PageResponse) (u : String)
    (pages : List (List Repository)) (fuel : Nat)
    (hfuel : pages.length < fuel)
    (hne : ∀ p ∈ pages, p ≠ [])
    (hpages : ∀ i, i < pages.length →
      server (1 + i) = PageResponse.resp 200 (BodyRead.body (some (pages.getD i []))))
    (hterm : server (1 + pages.length) = PageResponse.resp 200 (BodyRead.body (some []))) :
    fetchRepositories server u false fuel = Except.ok pages.flatten := by
  have h := fetch_pages_ok server u false pages fuel (some []) hfuel hne hpages hterm rfl
  simpa [pageFilter_false] using h

/-- Witness for C2: a concrete two-page listing followed by an empty page
(and transport failures on all later pages, which are never reached)
returns exactly the two entries in order. -/
theorem c2_pagination_concatenation_witness :
    fetchRepositories twoPageServer "" false 4 = Except.ok [repoOrgA, repoOrgB] := by
  have h := c2_pagination_concatenation twoPageServer "" [[repoOrgA], [repoOrgB]] 4
    (by decide) (by decide)
    (fun i hi => by
      have h2 : i = 0 ∨ i = 1 := by simp at hi; omega
      rcases h2 with rfl | rfl <;> rfl)
    (by rfl)
  simpa using h

/-- C1 is false of the code: json.Unmarshal's error is discarded
(main.go line 140), so a malformed page body leaves the decoded slice
empty, which ends pagination normally; here page 2's body is malformed,
yet fetchRepositories returns the partial list from page 1 with no
error, instead of aborting. -/
theorem c1_malformed_body_counterexample :
    malformedPageServer 2 = PageResponse.resp 200 (BodyRead.body none) ∧
    fetchRepositories malformedPageServer "" false 5 = Except.ok [repoOrgA] := by
  constructor
  · rfl
  · decide

/-- C1 amended: a page whose body fails to decode as a JSON array is
silently treated as an empty page: pagination stops there and
fetchRepositories returns the entries accumulated from the earlier
pages, with no error and no request beyond the malformed page. -/
theorem c1_amended_malformed_page_ends_listing (server : Nat → PageResponse)
    (u : String) (pages : List (List Repository)) (fuel : Nat)
    (hfuel : pages.length < fuel)
    (hne : ∀ p ∈ pages, p ≠ [])
    (hpages : ∀ i, i < pages.length →
      server (1 + i) = PageResponse.resp 200 (BodyRead.body (some (pages.getD i []))))
    (hmal : server (1 + pages.length) = PageResponse.resp 200 (BodyRead.body none)) :
    fetchRepositories server u false fuel = Except.ok pages.flatten := by
  have h := fetch_pages_ok server u false pages fuel none hfuel hne hpages hmal rfl
  simpa [pageFilter_false] using h

/-- Witness for the amended C1: one good page, then a malformed page;
the run returns the first page's entry without error. -/
theorem c1_amended_witness :
    fetchRepositories malformedPageServer "" false 4 = Except.ok [repoOrgA] := by
  have h := c1_amended_malformed_page_ends_listing malformedPageServer "" [[repoOrgA]] 4
    (by decide) (by decide)
    (fun i hi => by
      have h2 : i = 0 := by simp at hi; omega
      subst h2; rfl)
    (by rfl)
  simpa using h

/-- C8: a non-200 status on any requested listing page makes
fetchRepositories return an error, and main then returns before the
dispatch loop, so zero clone operations are invoked in that run. -/
theorem c8_non200_aborts_run (server : Nat → PageResponse) (u : String) (fb : Bool)
    (pages : List (List Repository)) (fuel : Nat) (code : Nat) (b : BodyRead)
    (stat : String → StatResult) (cloneErr : Repository → Option String)
    (hfuel : pages.length < fuel)
    (hne : ∀ p ∈ pages, p ≠ [])
    (hpages : ∀ i, i < pages.length →
      server (1 + i) = PageResponse.resp 200 (BodyRead.body (some (pages.getD i []))))
    (hbad : server (1 + pages.length) = PageResponse.resp code b)
    (hcode : code ≠ 200) :
    fetchRepositories server u fb fuel = Except.error (FetchError.httpStatus code) ∧
    cloneInvocations (runClones (fetchRepositories server u fb fuel) stat cloneErr) = 0 := by
  have h : fetchRepositories server u fb fuel = Except.error (FetchError.httpStatus code) := by
    rw [fetchRepositories, fetchAux_advance pages server u fb 1 fuel [] hfuel hne hpages]
    obtain ⟨m, hm⟩ : ∃ m, fuel - pages.length = m + 1 := ⟨fuel - pages.length - 1, by omega⟩
    rw [hm, fetchRepositoriesAux, hbad]
    simp [hcode]
  exact ⟨h, by rw [h]; rfl⟩

/-- Witness for C8: page 2 answers 404 after a good page 1; the listing
aborts with the status error and no clone is invoked. -/
theorem c8_non200_aborts_run_witness :
    fetchRepositories badStatusServer "" false 3 = Except.error (FetchError.httpStatus 404) ∧
    cloneInvocations (runClones (fetchRepositories badStatusServer "" false 3)
      statAlwaysNotExist cloneAlwaysOk) = 0 := by
  exact c8_non200_aborts_run badStatusServer "" false [[repoOrgA]] 3 404
    (BodyRead.body (some [])) statAlwaysNotExist cloneAlwaysOk
    (by decide) (by decide)
    (fun i hi => by
      have h2 : i = 0 := by simp at hi; omega
      subst h2; rfl)
    (by rfl) (by decide)

/-- With the filter flag on and a nonempty username, every entry the page
loop ever appends has passed the owner-segment test: members of a
successful result are members of the starting accumulator or have the
filter username as owner segment. -/
lemma fetchAux_owner_mem (u : String) (hu : u ≠ "") :
    ∀ (fuel : Nat) (server : Nat → PageResponse) (page : Nat) (acc l : List Repository),
      fetchRepositoriesAux server u true fuel page acc = Except.ok l →
      ∀ r ∈ l, r ∈ acc ∨ ownerSegment r.fullName = u := by
  intro fuel
  induction fuel with
  | zero =>
    intro server page acc l h
    simp [fetchRepositoriesAux] at h
  | succ f ih =>
    intro server page acc l h r hr
    rw [fetchRepositoriesAux] at h
    cases hs : server page with
    | netErr =>
      rw [hs] at h
      simp at h
    | resp code b =>
      rw [hs] at h
      by_cases hc : code = 200
      · subst hc
        cases b with
        | readErr => simp at h
        | body decoded =>
          by_cases hre : decoded.getD [] = []
          · simp only [hre] at h
            simp at h
            exact Or.inl (h ▸ hr)
          · simp only [hre] at h
            simp [hre] at h
            rcases ih server (page + 1) (acc ++ pageFilter u true (decoded.getD [])) l h r hr with
              hmem | hown
            · rcases List.mem_append.mp hmem with h1 | h2
              · exact Or.inl h1
              · right
                have hfilt : pageFilter u true (decoded.getD []) =
                    (decoded.getD []).filter (fun q => ownerSegment q.fullName == u) := by
                  simp [pageFilter, hu]
                rw [hfilt] at h2
                have hbeq := (List.mem_filter.mp h2).2
                simpa using hbeq
            · exact Or.inr hown
      · simp [hc] at h

/-- C3: when the owner filter is active (the filter flag is set and the
filter username, the identity resolved for -onlyme or the -user value,
is nonempty), every descriptor in the list fetchRepositories returns has
an owner segment equal to the filter username; equivalently, no
descriptor with a different owner segment appears. -/
theorem c3_filter_owner (server : Nat → PageResponse) (username : String)
    (fuel : Nat) (l : List Repository) (hu : username ≠ "")
    (h : fetchRepositories server username true fuel = Except.ok l) :
    ∀ r ∈ l, ownerSegment r.fullName = username := by
  intro r hr
  rcases fetchAux_owner_mem username hu fuel server 1 [] l h r hr with hmem | hown
  · simp at hmem
  · exact hown

/-- Witness for C3: a mixed-owner page filtered by "alice" yields only
the alice-owned repository, whose owner segment is "alice". -/
theorem c3_filter_owner_witness : ownerSegment repoAliceC.fullName = "alice" :=
  c3_filter_owner mixedOwnerServer "alice" 3 [repoAliceC] (by decide) (by decide)
    repoAliceC (by simp)

/-- Filtering a mapped list counts the elements whose image satisfies the
test. -/
lemma length_filter_map_eq {A B : Type} (f : A → B) (p : B → Bool) (l : List A) :
    ((l.map f).filter p).length = (l.filter (fun a => p (f a))).length := by
  induction l with
  | nil => rfl
  | cons a l ih => by_cases h : p (f a) <;> simp [List.filter_cons, h, ih]

/-- Tests that agree on the members of a list filter it to the same
length. -/
lemma length_filter_congr {A : Type} (p q : A → Bool) (l : List A)
    (h : ∀ a ∈ l, p a = q a) :
    (l.filter p).length = (l.filter q).length := by
  induction l with
  | nil => rfl
  | cons a l ih =>
    have ha := h a (by simp)
    have ih' := ih (fun b hb => h b (by simp [hb]))
    by_cases hp : p a = true
    · simp [List.filter_cons, hp, ha ▸ hp, ih']
    · have hq : q a = false := by rw [← ha]; revert hp; cases p a <;> simp
      have hp' : p a = false := by revert hp; cases p a <;> simp
      simp [List.filter_cons, hp', hq, ih']

/-- A test and its negation split the length of a list. -/
lemma length_filter_not {A : Type} (p : A → Bool) (l : List A) :
    (l.filter p).length + (l.filter (fun a => !p a)).length = l.length := by
  induction l with
  | nil => rfl
  | cons a l ih => by_cases h : p a <;> simp [List.filter_cons, h] <;> omega

/-- C7: dispatching N descriptors of which exactly K have an existing
local destination (the stat oracle answers ok exactly on those, not-exist
on the rest) produces exactly K skip outcomes, each a success, invokes
the clone operation exactly N-K times, and collects exactly N outcomes,
whatever failures the individual clones report. -/
theorem c7_dispatch_counts (repos : List Repository) (stat : String → StatResult)
    (cloneErr : Repository → Option String) (ex : Repository → Bool)
    (hstat : ∀ r ∈ repos, stat r.fullName = if ex r then StatResult.ok else StatResult.notExist) :
    ((dispatchAll stat cloneErr repos).filter (fun p => !p.2)).length =
      (repos.filter (fun r => ex r)).length ∧
    (∀ p ∈ dispatchAll stat cloneErr repos, p.2 = false → p.1.err = none) ∧
    cloneInvocations (dispatchAll stat cloneErr repos) =
      repos.length - (repos.filter (fun r => ex r)).length ∧
    (dispatchAll stat cloneErr repos).length = repos.length := by
  have hsnd : ∀ r ∈ repos, (!(dispatchOne stat cloneErr r).2) = ex r := by
    intro r hr
    have h := hstat r hr
    by_cases hex : ex r = true
    · rw [hex] at h
      simp at h
      simp [dispatchOne, h, hex]
    · have hex' : ex r = false := by revert hex; cases ex r <;> simp
      rw [hex'] at h
      simp at h
      simp [dispatchOne, h, hex']
  have hlen : (dispatchAll stat cloneErr repos).length = repos.length := by
    simp [dispatchAll]
  have hskip : ((dispatchAll stat cloneErr repos).filter (fun p => !p.2)).length =
      (repos.filter (fun r => ex r)).length := by
    rw [dispatchAll, length_filter_map_eq]
    exact length_filter_congr _ _ repos hsnd
  refine ⟨hskip, ?_, ?_, hlen⟩
  · intro p hp hpf
    rcases List.mem_map.mp hp with ⟨r, hr, rfl⟩
    by_cases h : stat r.fullName = StatResult.notExist
    · simp [dispatchOne, h] at hpf
    · simp [dispatchOne, h]
  · have hclone : cloneInvocations (dispatchAll stat cloneErr repos) =
        (repos.filter (fun r => !(ex r))).length := by
      rw [cloneInvocations, dispatchAll, length_filter_map_eq]
      refine length_filter_congr _ _ repos (fun r hr => ?_)
      have h := hsnd r hr
      revert h
      cases hd : (dispatchOne stat cloneErr r).2 <;> cases hx : ex r <;> simp
    rw [hclone]
    have hsplit := length_filter_not (fun r => ex r) repos
    have hsplit' : (repos.filter (fun r => ex r)).length +
        (repos.filter (fun r => !(ex r))).length = repos.length := hsplit
    omega

/-- C4: running with -onlyme when the token's identity resolves to
"alice" hands fetchRepositories the same username and filter flag as
running with -user alice, so the two runs return identical lists for
every server behaviour; and when both flags are given, -onlyme wins:
the username passed is the resolved identity, not the -user value
(main.go checks onlyMe before user). -/
theorem c4_onlyme_equals_user (server : Nat → PageResponse) (fuel : Nat)
    (user resolved : String) :
    fetchRepositories server (mainUsername true user "alice") (mainFilterFlag true user) fuel =
      fetchRepositories server (mainUsername false "alice" resolved)
        (mainFilterFlag false "alice") fuel ∧
    mainUsername true user resolved = resolved := by
  constructor
  · have h1 : mainUsername true user "alice" = "alice" := rfl
    have h2 : mainFilterFlag true user = true := rfl
    have h3 : mainUsername false "alice" resolved = "alice" := by
      simp [mainUsername]
    have h4 : mainFilterFlag false "alice" = true := by decide
    rw [h1, h2, h3, h4]
  · rfl

/-- C6: when the filesystem entry named by the descriptor's full name
already exists (the stat succeeds), the dispatcher does not invoke the
clone operation and still emits a success outcome (a nil error) for it. -/
theorem c6_existing_destination_skips (stat : String → StatResult)
    (cloneErr : Repository → Option String) (repo : Repository)
    (h : stat repo.fullName = StatResult.ok) :
    dispatchOne stat cloneErr repo = ({ repoName := repo.fullName, err := none }, false) := by
  simp [dispatchOne, h]

/-- Witness for C6: with an existing destination and a clone oracle that
would fail, the outcome is still a success and no clone is invoked. -/
theorem c6_existing_destination_skips_witness :
    dispatchOne statAlwaysOk cloneAlwaysFails repoOrgA =
      ({ repoName := repoOrgA.fullName, err := none }, false) :=
  c6_existing_destination_skips statAlwaysOk cloneAlwaysFails repoOrgA rfl

/-- C9: when the stat of the destination fails with any error other than
not-exist (for example a permission error), os.IsNotExist is false, so
the dispatcher takes the skip branch exactly as for an existing entry:
no clone is invoked and a success outcome is emitted. -/
theorem c9_stat_error_treated_as_present (stat : String → StatResult)
    (cloneErr : Repository → Option String) (repo : Repository)
    (h : stat repo.fullName = StatResult.otherErr) :
    dispatchOne stat cloneErr repo = ({ repoName := repo.fullName, err := none }, false) := by
  simp [dispatchOne, h]

/-- Witness for C9: a stat oracle that always fails with a non-not-exist
error makes the dispatcher skip and report success. -/
theorem c9_stat_error_treated_as_present_witness :
    dispatchOne statAlwaysOtherErr cloneAlwaysFails repoOrgA =
      ({ repoName := repoOrgA.fullName, err := none }, false) :=
  c9_stat_error_treated_as_present statAlwaysOtherErr cloneAlwaysFails repoOrgA rfl

/-- Witness for C7: of three repositories exactly one exists locally;
the dispatch produces one skip outcome, two clone invocations (one of
which fails), and three outcomes in total. -/
theorem c7_dispatch_counts_witness :
    ((dispatchAll statOnlyOrgA cloneFailOrgB threeRepos).filter (fun p => !p.2)).length = 1 ∧
    cloneInvocations (dispatchAll statOnlyOrgA cloneFailOrgB threeRepos) = 2 ∧
    (dispatchAll statOnlyOrgA cloneFailOrgB threeRepos).length = 3 := by
  obtain ⟨h1, _, h3, h4⟩ :=
    c7_dispatch_counts threeRepos statOnlyOrgA cloneFailOrgB existsOnlyOrgA (by decide)
  refine ⟨?_, ?_, ?_⟩
  · rw [h1]
    decide
  · rw [h3]
    decide
  · rw [h4]
    decide

/-- Splitting at the first occurrence of a separator that does not occur
yields the single whole field. -/
lemma splitFirst_not_mem (c : Char) :
    ∀ (cs acc : List Char), c ∉ cs → splitFirst c cs acc = [acc.reverse ++ cs] := by
  intro cs
  induction cs with
  | nil =>
    intro acc h
    simp [splitFirst]
  | cons x xs ih =>
    intro acc h
    have hx : ¬(x = c) := fun he => h (he ▸ List.mem_cons_self x xs)
    have hxs : c ∉ xs := fun hm => h (List.mem_cons_of_mem x hm)
    rw [splitFirst, if_neg hx, ih (x :: acc) hxs]
    simp

/-- Splitting at the first occurrence of a separator that occurs yields
exactly two fields. -/
lemma splitFirst_mem (c : Char) :
    ∀ (cs acc : List Char), c ∈ cs → ∃ k v, splitFirst c cs acc = [k, v] := by
  intro cs
  induction cs with
  | nil =>
    intro acc h
    simp at h
  | cons x xs ih =>
    intro acc h
    by_cases hx : x = c
    · exact ⟨acc.reverse, xs, by rw [splitFirst, if_pos hx]⟩
    · have hxs : c ∈ xs := by
        rcases List.mem_cons.mp h with h1 | h2
        · exact absurd h1.symm hx
        · exact h2
      rw [splitFirst, if_neg hx]
      exact ih (x :: acc) hxs

/-- A line survives loadConfig's line step exactly when it is skippable
or contains the separator. -/
lemma loadConfigLine_ok (cfg : List (String × String)) (line : String)
    (h : isSkippable line = true ∨ '=' ∈ line.data) :
    ∃ cfg', loadConfigLine cfg line = Except.ok cfg' := by
  rcases h with h | h
  · exact ⟨cfg, by simp [loadConfigLine, h]⟩
  · obtain ⟨k, v, hkv⟩ := splitFirst_mem '=' line.data [] h
    by_cases hs : isSkippable line = true
    · exact ⟨cfg, by simp [loadConfigLine, hs]⟩
    · have hs' : isSkippable line = false := by revert hs; cases isSkippable line <;> simp
      exact ⟨cfg ++ [(⟨trimChars k⟩, ⟨trimChars v⟩)], by simp [loadConfigLine, hs', hkv]⟩

/-- A non-skippable line without the separator makes loadConfig's line
step fail. -/
lemma loadConfigLine_err (cfg : List (String × String)) (line : String)
    (h1 : isSkippable line = false) (h2 : '=' ∉ line.data) :
    loadConfigLine cfg line = Except.error ("bad line in config file: " ++ line) := by
  rw [loadConfigLine, if_neg (by simp [h1]), splitFirst_not_mem '=' line.data [] h2]

/-- Unfolding of loadConfig's loop on a nonempty line list. -/
lemma loadConfigLines_cons (cfg : List (String × String)) (l : String) (ls : List String) :
    loadConfigLines cfg (l :: ls) =
      match loadConfigLine cfg l with
      | Except.ok cfg' => loadConfigLines cfg' ls
      | Except.error e => Except.error e := rfl

/-- loadConfig's loop succeeds exactly when every line is skippable or
contains the separator. -/
lemma loadConfigLines_ok_iff (lines : List String) :
    ∀ cfg, (∃ cfg', loadConfigLines cfg lines = Except.ok cfg') ↔
      ∀ l ∈ lines, isSkippable l = true ∨ '=' ∈ l.data := by
  induction lines with
  | nil =>
    intro cfg
    constructor
    · intro _ l hl
      simp at hl
    · intro _
      exact ⟨cfg, rfl⟩
  | cons l ls ih =>
    intro cfg
    constructor
    · rintro ⟨cfg', hok⟩ q hq
      rw [loadConfigLines_cons] at hok
      cases hl : loadConfigLine cfg l with
      | error e =>
        rw [hl] at hok
        simp at hok
      | ok cfg1 =>
        rcases List.mem_cons.mp hq with rfl | hq'
        · by_cases hs : isSkippable q = true
          · exact Or.inl hs
          · have hs' : isSkippable q = false := by revert hs; cases isSkippable q <;> simp
            by_cases hm : '=' ∈ q.data
            · exact Or.inr hm
            · rw [loadConfigLine_err cfg q hs' hm] at hl
              exact absurd hl (by simp)
        · rw [hl] at hok
          exact (ih cfg1).mp ⟨cfg', hok⟩ q hq'
    · intro h
      obtain ⟨cfg1, h1⟩ := loadConfigLine_ok cfg l (h l (List.mem_cons_self l ls))
      obtain ⟨cfg', h2⟩ := (ih cfg1).mpr (fun q hq => h q (List.mem_cons_of_mem l hq))
      exact ⟨cfg', by rw [loadConfigLines_cons, h1]; exact h2⟩

/-- Skippable lines are no-ops: loadConfig's loop gives the same result
when they are removed beforehand. -/
lemma loadConfigLines_filter (lines : List String) :
    ∀ cfg, loadConfigLines cfg lines =
      loadConfigLines cfg (lines.filter (fun l => !(isSkippable l))) := by
  induction lines with
  | nil =>
    intro cfg
    rfl
  | cons l ls ih =>
    intro cfg
    by_cases h : isSkippable l = true
    · have hok : loadConfigLine cfg l = Except.ok cfg := by simp [loadConfigLine, h]
      simp [loadConfigLines, List.filter_cons, h, hok, ih cfg]
    · have h' : isSkippable l = false := by revert h; cases isSkippable l <;> simp
      have hf : List.filter (fun q => !(isSkippable q)) (l :: ls) =
          l :: List.filter (fun q => !(isSkippable q)) ls := by
        simp [List.filter_cons, h']
      rw [hf, loadConfigLines_cons, loadConfigLines_cons]
      cases hl : loadConfigLine cfg l with
      | ok cfg1 => exact ih cfg1
      | error e => rfl

/-- Every run of loadConfig's loop is an ok or an error. -/
lemma loadConfigLines_cases (lines : List String) (cfg : List (String × String)) :
    (∃ cfg', loadConfigLines cfg lines = Except.ok cfg') ∨
      (∃ e, loadConfigLines cfg lines = Except.error e) := by
  cases h : loadConfigLines cfg lines with
  | ok cfg' => exact Or.inl ⟨cfg', rfl⟩
  | error e => exact Or.inr ⟨e, rfl⟩

/-- C5 is false of the code: strings.SplitN(line, "=", 2) returns two
fields for any line containing at least one '=', however many there are;
the line A=b=c has two '=' characters, is neither blank nor a comment,
and loadConfig accepts it, splitting at the first '=' (the claim says
the load must fail). -/
theorem c5_two_separators_counterexample :
    ("A=b=c".data.count '=') = 2 ∧ isSkippable "A=b=c" = false ∧
    loadConfig "A=b=c" = Except.ok [("A", "b=c")] := by
  refine ⟨by decide, by decide, by decide⟩

/-- C5 amended: loadConfig ignores blank lines and lines starting with
'#' (removing them beforehand changes nothing), and fails exactly when
some other line contains no '=' at all; a line with one or more '=' is
accepted and split at its first '='. -/
theorem c5_amended_separator_rule (content : String) :
    loadConfig content =
      loadConfigLines [] ((splitOnChar content '\n').filter (fun l => !(isSkippable l))) ∧
    ((∃ e, loadConfig content = Except.error e) ↔
      ∃ l ∈ splitOnChar content '\n', isSkippable l = false ∧ '=' ∉ l.data) := by
  constructor
  · exact loadConfigLines_filter (splitOnChar content '\n') []
  · constructor
    · rintro ⟨e, he⟩
      by_contra hno
      push_neg at hno
      have hall : ∀ l ∈ splitOnChar content '\n', isSkippable l = true ∨ '=' ∈ l.data := by
        intro l hl
        by_cases hs : isSkippable l = true
        · exact Or.inl hs
        · have hs' : isSkippable l = false := by revert hs; cases isSkippable l <;> simp
          exact Or.inr (hno l hl hs')
      obtain ⟨cfg', hok⟩ := (loadConfigLines_ok_iff (splitOnChar content '\n') []).mpr hall
      rw [loadConfig] at he
      rw [hok] at he
      exact absurd he (by simp)
    · rintro ⟨l, hl, hs, hm⟩
      rcases loadConfigLines_cases (splitOnChar content '\n') [] with ⟨cfg', hok⟩ | ⟨e, he⟩
      · have := (loadConfigLines_ok_iff (splitOnChar content '\n') []).mp ⟨cfg', hok⟩ l hl
        rcases this with h | h
        · rw [hs] at h
          exact absurd h (by simp)
        · exact absurd h hm
      · exact ⟨e, he⟩

/-- C10: loadConfig checks no required keys: any file whose non-skipped
lines all contain an '=' loads successfully whatever keys it defines,
and reading an absent key from the resulting configuration, as main does
for GITEA_HOST, GITEA_ACCESS_TOKEN and TARGET_DIR, yields the empty
string (the Go map zero value), with which the run proceeds. -/
theorem c10_no_required_keys (content : String)
    (h : ∀ l ∈ splitOnChar content '\n', isSkippable l = true ∨ '=' ∈ l.data) :
    ∃ cfg, loadConfig content = Except.ok cfg ∧
      ∀ key : String, (∀ e ∈ cfg, e.1 ≠ key) → getValue cfg key = "" := by
  obtain ⟨cfg, hcfg⟩ := (loadConfigLines_ok_iff (splitOnChar content '\n') []).mpr h
  refine ⟨cfg, hcfg, ?_⟩
  intro key hkey
  have hfind : cfg.reverse.find? (fun e => e.1 == key) = none := by
    apply List.find?_eq_none.mpr
    intro e he
    have he' : e ∈ cfg := List.mem_reverse.mp he
    simp [hkey e he']
  rw [getValue, hfind]

/-- Witness for C10: a configuration file consisting of a comment and a
blank line loads successfully, and the three keys main reads come back
as empty strings. -/
theorem c10_no_required_keys_witness :
    ∃ cfg, loadConfig "# host not set\n" = Except.ok cfg ∧
      ∀ key : String, (∀ e ∈ cfg, e.1 ≠ key) → getValue cfg key = "" :=
  c10_no_required_keys "# host not set\n" (by decide)
